import Mathlib

/-!
Formal model of the Arsea content-blocker core (DNS proxy, blocklist
validation, system-DNS backup/restore, process lifecycle), shallowly
embedded from the JavaScript sources:

  * `daemon/dns-proxy.js`   — `SimpleDNSPacket` (parse / buildResponse),
    `ArseaDNSProxy` (isBlocked / handleDNSQuery / sendBlockedResponse)
  * `daemon/index.js`       — blocklist validation, CLI startup sequence
  * `daemon/dns-config.js`  — backup / configure / restore value logic
  * `daemon/process-manager.js` — PID/state file writes, instance check

Modelling conventions:

  * JavaScript strings and Node `Buffer`s are modelled as `List Nat`
    (one entry per byte / per UTF-16 code unit; all data relevant to the
    verified claims is ASCII, where the two coincide).
    `String.prototype.toLowerCase` is modelled as ASCII lowercasing.
  * Node `Buffer` write primitives keep their exact bounds behavior:
    `writeUIntBE` throws out of bounds (modelled with `Except`),
    `buf[i] = v` out of bounds is a silent no-op, and `buf.write(s, off)`
    throws only when `off` exceeds the buffer length (for nonempty `s`)
    and otherwise writes a possibly truncated prefix of `s`.
  * Code with external effects (sockets, subprocesses, the filesystem) is
    embedded as pure functions over explicit inputs (the bytes received,
    the command output observed) or as explicit effect traces.
-/

namespace Arsea

/-- JavaScript strings / byte buffers, one `Nat` per byte. -/
abbrev Str := List Nat

/-- ASCII lowercasing of one byte (model of `toLowerCase` on ASCII data). -/
def toLowerByte (c : Nat) : Nat :=
  if 65 ≤ c ∧ c ≤ 90 then c + 32 else c

/-- Model of `String.prototype.toLowerCase` (ASCII). -/
def strToLower (s : Str) : Str := s.map toLowerByte

/-- Model of `String.prototype.split(sep)` for a one-character separator
`b`: splits into (possibly empty) pieces, never returns `[]`. -/
def splitOnByte (b : Nat) : Str → List Str
  | [] => [[]]
  | c :: rest =>
    match splitOnByte b rest with
    | [] => [[]]
    | h :: t => if c = b then [] :: h :: t else (c :: h) :: t

/-- Model of `split('.')`. -/
def splitOnDot (s : Str) : List Str := splitOnByte 46 s

/-- Model of `split('\n')`. -/
def splitLines (s : Str) : List Str := splitOnByte 10 s

/-- Model of `Array.prototype.join(sep)` for a one-character separator. -/
def joinSep (sep : Nat) : List Str → Str
  | [] => []
  | [l] => l
  | l :: ls => l ++ sep :: joinSep sep ls

/-- Model of `Array.prototype.join('.')`. -/
def joinDots (ls : List Str) : Str := joinSep 46 ls

/-- Model of `Array.prototype.join('\n')`. -/
def joinNl (ls : List Str) : Str := joinSep 10 ls

/-- ASCII whitespace, as removed by `String.prototype.trim`. -/
def isWsByte (c : Nat) : Bool := c = 32 || (9 ≤ c && c ≤ 13)

/-- Model of `String.prototype.trim` (ASCII whitespace). -/
def trimStr (s : Str) : Str :=
  ((s.dropWhile isWsByte).reverse.dropWhile isWsByte).reverse

/-- Does `pat` occur as a contiguous substring of `s`
(model of `String.prototype.includes`)? -/
def isSubstr (pat s : Str) : Bool :=
  (List.range (s.length + 1)).any fun i => pat.isPrefixOf (s.drop i)

/-- Model of `buffer[i]` reads (in-bounds reads only are exercised). -/
def byteAt (b : Str) (i : Nat) : Nat := b.getD i 0

/-- Model of `Buffer.prototype.readUInt16BE`. -/
def readUInt16BE (b : Str) (i : Nat) : Nat := 256 * byteAt b i + byteAt b (i + 1)

end Arsea

namespace Arsea.SimpleDNSPacket

/-- The single parsed question (`query.question[0]` in `parse`):
name (lowercased, labels joined with dots), qtype and qclass.
The source fields are `name`, `type`, `class`. -/
structure Question where
  name : Str
  qtype : Nat
  qclass : Nat
deriving DecidableEq, Repr

/-- The value returned by `SimpleDNSPacket.parse`: header id, RD flag, and
the single question (the source wraps it in a one-element array). -/
structure Query where
  id : Nat
  rd : Bool
  question : Question
deriving DecidableEq, Repr

/-- One step state of `parseName`'s while-loop, driven by the explicit
`maxLoops` fuel of the source (20). Returns the collected labels, the
final offset, and the pointer-jump bookkeeping; `Except.error` models a
thrown exception. When the fuel runs out the source loop exits normally
with whatever was collected, so fuel exhaustion is `Except.ok`. -/
def parseNameAux (buffer : Str) :
    Nat → Nat → Bool → Nat → List Str → Except Unit (List Str × Nat × Bool × Nat)
  | 0, offset, jumped, jumpOffset, acc => .ok (acc, offset, jumped, jumpOffset)
  | fuel + 1, offset, jumped, jumpOffset, acc =>
    if buffer.length ≤ offset then .error ()
    else
      let len := byteAt buffer offset
      if len = 0 then .ok (acc, offset + 1, jumped, jumpOffset)
      else if len &&& 0xC0 = 0xC0 then
        if buffer.length ≤ offset + 1 then .error ()
        else
          let target := ((len &&& 0x3F) <<< 8) ||| byteAt buffer (offset + 1)
          if jumped then parseNameAux buffer fuel target jumped jumpOffset acc
          else parseNameAux buffer fuel target true (offset + 2) acc
      else
        if buffer.length < offset + 1 + len then .error ()
        else
          let label := (buffer.drop (offset + 1)).take len
          parseNameAux buffer fuel (offset + 1 + len) jumped jumpOffset (acc ++ [label])

/-- Model of `SimpleDNSPacket.parseName`: collect labels (following at most
20 compression hops / labels), then join with dots and lowercase. -/
def parseName (buffer : Str) (offset : Nat) : Except Unit (Str × Nat) :=
  match parseNameAux buffer 20 offset false offset [] with
  | .error e => .error e
  | .ok (labels, off, jumped, jumpOffset) =>
    .ok (strToLower (joinDots labels), if jumped then jumpOffset else off)

/-- Model of `SimpleDNSPacket.parse`. Every internally thrown error is
caught by the source's `try/catch` and turned into `null`, hence `none`.
The unused header counts (`questions`, `answers`, …) are read but dropped
by the source as well. -/
def parse (buffer : Str) : Option Query :=
  if buffer.length < 12 then none
  else if buffer.length < 12 + 5 then none
  else
    match parseName buffer 12 with
    | .error _ => none
    | .ok (name, qoff) =>
      if buffer.length < qoff + 4 then none
      else
        some
          { id := readUInt16BE buffer 0
            rd := (readUInt16BE buffer 2) &&& 0x0100 ≠ 0
            question :=
              { name := name
                qtype := readUInt16BE buffer qoff
                qclass := readUInt16BE buffer (qoff + 2) } }

/-- Model of `buffer[off] = v` on a Node `Buffer`: silent no-op when out of
bounds. -/
def setByte (b : Str) (off v : Nat) : Str :=
  if off < b.length then b.set off v else b

/-- Model of `Buffer.prototype.writeUInt16BE v off` (throws out of bounds). -/
def writeU16 (b : Str) (v off : Nat) : Except Unit Str :=
  if off + 2 ≤ b.length then
    .ok ((b.set off (v / 256 % 256)).set (off + 1) (v % 256))
  else .error ()

/-- Model of `Buffer.prototype.writeUInt32BE v off` (throws out of bounds). -/
def writeU32 (b : Str) (v off : Nat) : Except Unit Str :=
  if off + 4 ≤ b.length then
    .ok ((((b.set off (v / 16777216 % 256)).set (off + 1) (v / 65536 % 256)).set
      (off + 2) (v / 256 % 256)).set (off + 3) (v % 256))
  else .error ()

/-- Model of `Buffer.prototype.write(s, off)`: throws when `off` exceeds the
buffer length and `s` is nonempty, otherwise writes a prefix of `s`
truncated to the remaining room. -/
def bufWriteStr (b : Str) (s : Str) (off : Nat) : Except Unit Str :=
  if s ≠ [] ∧ b.length < off then .error ()
  else .ok (b.take off ++ s.take (b.length - off) ++
    b.drop (off + min s.length (b.length - off)))

/-- The label-writing loop of `SimpleDNSPacket.writeName`: for each nonempty
dot-separated label, write a length byte then the label bytes; empty labels
are skipped (`if (label.length > 0)`); finally a terminating zero byte.
The source advances `offset` by `label.length` whether or not the write was
truncated. -/
def writeNameAux : List Str → Str → Nat → Except Unit (Str × Nat)
  | [], b, off => .ok (setByte b off 0, off + 1)
  | l :: ls, b, off =>
    if l.isEmpty then writeNameAux ls b off
    else
      match bufWriteStr (setByte b off l.length) l (off + 1) with
      | .error e => .error e
      | .ok b2 => writeNameAux ls b2 (off + 1 + l.length)

/-- Model of `SimpleDNSPacket.writeName`. -/
def writeName (b : Str) (off : Nat) (name : Str) : Except Unit (Str × Nat) :=
  writeNameAux (splitOnDot name) b off

/-- The four RDATA octets produced by `'127.0.0.1'.split('.')` and
`parseInt` at the only call site of `buildResponse`. -/
def blockedIPParts : List Nat := [127, 0, 0, 1]

/-- Model of `SimpleDNSPacket.buildResponse` over a 512-octet
`Buffer.alloc(512)`: header with the query id and flags `0x8180`
(QR=1, AA=0, TC=0, RD=1, RA=1, RCODE=0), QDCOUNT=1, ANCOUNT=1, the echoed
question, and one answer RR (TYPE=A, CLASS=IN, TTL=300, RDLENGTH=4, RDATA
= `ip`), then `slice(0, offset)`. An `Except.error` models a thrown
`RangeError` from an out-of-bounds write. -/
def buildResponse (query : Query) (ip : List Nat) : Except Unit Str := do
  let b := List.replicate 512 0
  let b ← writeU16 b query.id 0
  let b ← writeU16 b 0x8180 2
  let b ← writeU16 b 1 4
  let b ← writeU16 b 1 6
  let b ← writeU16 b 0 8
  let b ← writeU16 b 0 10
  let (b, off) ← writeName b 12 query.question.name
  let b ← writeU16 b query.question.qtype off
  let b ← writeU16 b query.question.qclass (off + 2)
  let off := off + 4
  let (b, off) ← writeName b off query.question.name
  let b ← writeU16 b 1 off
  let b ← writeU16 b 1 (off + 2)
  let b ← writeU32 b 300 (off + 4)
  let b ← writeU16 b 4 (off + 8)
  let b := setByte b (off + 10) (ip.getD 0 0)
  let b := setByte b (off + 11) (ip.getD 1 0)
  let b := setByte b (off + 12) (ip.getD 2 0)
  let b := setByte b (off + 13) (ip.getD 3 0)
  return b.take (off + 14)

end Arsea.SimpleDNSPacket

namespace Arsea.ArseaDNSProxy

open Arsea.SimpleDNSPacket

/-- The `this.stats` counters of `ArseaDNSProxy`. -/
structure Stats where
  queries : Nat
  blocked : Nat
  allowed : Nat
  errors : Nat
deriving DecidableEq, Repr

/-- All-zero counters (the constructor's initial value). -/
def stats0 : Stats := ⟨0, 0, 0, 0⟩

/-- The externally visible outcome of handling one datagram:
`reply r` — exactly one synthesized response `r` is sent to the client;
`replyFailed` — `buildResponse` threw, `sendBlockedResponse` caught the
error, and nothing was sent; `forward` — the packet is forwarded upstream;
`noReply` — the packet is dropped silently. -/
inductive Action where
  | reply (r : Str)
  | replyFailed
  | forward
  | noReply
deriving DecidableEq, Repr

/-- Model of `ArseaDNSProxy.isBlocked`: empty (falsy) names are not
blocked; otherwise the lowercased name is looked up directly, then every
suffix `parts.slice(i).join('.')` for `0 ≤ i < parts.length - 1`. -/
def isBlocked (blockedDomains : List Str) (domain : Str) : Bool :=
  if domain.isEmpty then false
  else
    let cleanDomain := strToLower domain
    if blockedDomains.contains cleanDomain then true
    else
      let parts := splitOnDot cleanDomain
      (List.range (parts.length - 1)).any fun i =>
        blockedDomains.contains (joinDots (parts.drop i))

/-- Model of `ArseaDNSProxy.sendBlockedResponse`: build the response with
RDATA `127.0.0.1` and send it; an exception from the builder is caught and
nothing is sent. -/
def sendBlockedResponse (query : Query) : Action :=
  match buildResponse query blockedIPParts with
  | .ok r => .reply r
  | .error _ => .replyFailed

/-- Model of `ArseaDNSProxy.handleDNSQuery`: count the query; drop
unparseable packets silently (`parse` returns `null` — the `errors`
counter is untouched because `parse` catches its own exceptions); forward
qtypes other than A (1) and AAAA (28); answer blocked names via
`sendBlockedResponse`; forward the rest. -/
def handleDNSQuery (blockedDomains : List Str) (stats : Stats) (message : Str) :
    Stats × Action :=
  let stats := { stats with queries := stats.queries + 1 }
  match parse message with
  | none => (stats, .noReply)
  | some query =>
    let domain := query.question.name
    let queryType := query.question.qtype
    if queryType ≠ 1 ∧ queryType ≠ 28 then (stats, .forward)
    else if isBlocked blockedDomains domain then
      ({ stats with blocked := stats.blocked + 1 }, sendBlockedResponse query)
    else
      ({ stats with allowed := stats.allowed + 1 }, .forward)

end Arsea.ArseaDNSProxy

namespace Arsea.ArseaDaemon

/-- One label of the domain regex
`^(?!-)[a-z0-9-]{1,63}(?<!-)(\.(?!-)[a-z0-9-]{1,63}(?<!-))*$` (flag `i`)
from `ArseaDaemon.isValidDomain`: 1–63 characters drawn from
letters (either case, because of the `i` flag), digits and `-`, with no
leading or trailing `-`. The whole regex is equivalent to: the dot-split
of the string is a nonempty list of such labels with no empty piece. -/
def regexLabelOk (l : Arsea.Str) : Bool :=
  1 ≤ l.length && l.length ≤ 63 &&
  l.all (fun c =>
    (97 ≤ c && c ≤ 122) || (65 ≤ c && c ≤ 90) || (48 ≤ c && c ≤ 57) || c = 45) &&
  l.getD 0 0 ≠ 45 && l.getD (l.length - 1) 0 ≠ 45

/-- Model of `ArseaDaemon.isValidDomain`: the regex test plus
`domain.length > 0 && domain.length < 255`. -/
def isValidDomain (domain : Arsea.Str) : Bool :=
  (Arsea.splitOnDot domain).all regexLabelOk &&
  domain.length > 0 && domain.length < 255

/-- The sanitized form of an entry: `domain.toLowerCase().trim()`. -/
def sanitize (e : Arsea.Str) : Arsea.Str := Arsea.trimStr (Arsea.strToLower e)

/-- Whether one blocklist entry is accepted by
`ArseaDaemon.loadFromJsonWithValidation`: the entry (a string — non-string
JSON values are rejected outside this model) must trim to something
nonempty and its sanitized form must pass `isValidDomain`. -/
def acceptsEntry (e : Arsea.Str) : Bool :=
  !(Arsea.trimStr e).isEmpty && isValidDomain (sanitize e)

/-- The accumulation loop of `loadFromJsonWithValidation`: accepted entries
go into the `validDomains` set (deduplicated), each rejected entry bumps
`invalidCount`. -/
def loadValidateCounts (entries : List Arsea.Str) : List Arsea.Str × Nat :=
  entries.foldl
    (fun acc e =>
      if acceptsEntry e then
        (if acc.1.contains (sanitize e) then acc.1 else acc.1 ++ [sanitize e], acc.2)
      else (acc.1, acc.2 + 1))
    ([], 0)

end Arsea.ArseaDaemon

namespace Arsea.DNSConfigManager

/-- The platform tag (`os.platform()`), restricted to the three cases the
source distinguishes. -/
inductive Platform where
  | win32
  | darwin
  | linux
deriving DecidableEq, Repr

/-- A resolver-configuration value as the source observes and stores it:
either an array of server strings (Windows/macOS, and Linux via
`resolvectl`) or a whole `/etc/resolv.conf` content string (Linux
fallback). -/
inductive DNSValue where
  | vlist (servers : List Arsea.Str)
  | vstr (content : Arsea.Str)
deriving DecidableEq, Repr

/-- ASCII bytes of `dhcp`. -/
def dhcpB : Arsea.Str := [100, 104, 99, 112]

/-- ASCII bytes of `localhost`. -/
def localhostB : Arsea.Str := [108, 111, 99, 97, 108, 104, 111, 115, 116]

/-- ASCII bytes of `127.0.0.1`. -/
def lo127B : Arsea.Str := [49, 50, 55, 46, 48, 46, 48, 46, 49]

/-- ASCII bytes of `127.`. -/
def pre127B : Arsea.Str := [49, 50, 55, 46]

/-- ASCII bytes of `0.0.0.0`. -/
def zeroIpB : Arsea.Str := [48, 46, 48, 46, 48, 46, 48]

/-- ASCII bytes of `8.8.8.8`. -/
def dns8888B : Arsea.Str := [56, 46, 56, 46, 56, 46, 56]

/-- ASCII bytes of `1.1.1.1`. -/
def dns1111B : Arsea.Str := [49, 46, 49, 46, 49, 46, 49]

/-- ASCII bytes of `nameserver`. -/
def nameserverB : Arsea.Str := [110, 97, 109, 101, 115, 101, 114, 118, 101, 114]

/-- ASCII bytes of `nameserver ` (with a trailing space). -/
def nsSpaceB : Arsea.Str := nameserverB ++ [32]

/-- ASCII bytes of `# Arsea DNS Configuration - Start`. -/
def arseaHeaderTrimB : Arsea.Str :=
  [35, 32, 65, 114, 115, 101, 97, 32, 68, 78, 83, 32, 67, 111, 110, 102, 105,
   103, 117, 114, 97, 116, 105, 111, 110, 32, 45, 32, 83, 116, 97, 114, 116]

/-- ASCII bytes of `# Arsea DNS Configuration - End`. -/
def arseaFooterTrimB : Arsea.Str :=
  [35, 32, 65, 114, 115, 101, 97, 32, 68, 78, 83, 32, 67, 111, 110, 102, 105,
   103, 117, 114, 97, 116, 105, 111, 110, 32, 45, 32, 69, 110, 100]

/-- Is `c` an ASCII digit? -/
def isDigitByte (c : Nat) : Bool := 48 ≤ c && c ≤ 57

/-- Consume `\d{1,3}\.` at the front of `t`: the possible remainders after
matching one to three digits followed by a literal dot. -/
def digits13Dot (t : Arsea.Str) : List Arsea.Str :=
  [1, 2, 3].filterMap fun n =>
    if (t.take n).length = n && (t.take n).all isDigitByte && t.getD n 0 = 46 then
      some (t.drop (n + 1))
    else none

/-- Does `nameserver 127\.\d{1,3}\.\d{1,3}\.\d{1,3}` match at the front of
`t`? -/
def nsLoopbackAt (t : Arsea.Str) : Bool :=
  (nsSpaceB ++ pre127B).isPrefixOf t &&
  (digits13Dot (t.drop (nsSpaceB ++ pre127B).length)).any fun r1 =>
    (digits13Dot r1).any fun r2 => isDigitByte (r2.getD 0 0)

/-- Model of the regex test
`dnsServers.match(/nameserver 127\.\d{1,3}\.\d{1,3}\.\d{1,3}/) !== null`:
the pattern matches at some position. -/
def nsLoopbackMatch (s : Arsea.Str) : Bool :=
  (List.range (s.length + 1)).any fun i => nsLoopbackAt (s.drop i)

/-- Model of `DNSConfigManager.isDNSPointingToLocalhost`: for an array,
some entry equals `127.0.0.1` or `localhost` or starts with `127.`; for a
resolv.conf content string, it contains `nameserver 127.0.0.1`,
`nameserver localhost`, or matches the `nameserver 127.x.x.x` regex. -/
def isDNSPointingToLocalhost : DNSValue → Bool
  | .vlist l =>
    l.any fun dns => dns = lo127B || dns = localhostB || pre127B.isPrefixOf dns
  | .vstr s =>
    Arsea.isSubstr (nsSpaceB ++ lo127B) s || Arsea.isSubstr (nsSpaceB ++ localhostB) s ||
    nsLoopbackMatch s

/-- Model of `DNSConfigManager.getOriginalDNSWindows`, abstracted over its
one external input: `probe` is the first IP captured from the
`DNS servers configured through DHCP` line of
`netsh interface ip show config` (or `none` when no such line / capture
exists, and `none` also stands for a thrown command error — both fall
through to `['dhcp']`). The captured IP is only compared against
`0.0.0.0`; it is NOT re-checked against loopback. -/
def getOriginalDNSWindows (probe : Option Arsea.Str) : DNSValue :=
  match probe with
  | some ip => if ip ≠ zeroIpB then .vlist [ip] else .vlist [dhcpB]
  | none => .vlist [dhcpB]

/-- The pure value logic of `DNSConfigManager.backup` (lines 340–369),
mapping the resolvers read by `getCurrentDNS` to the `originalDNS` value
persisted in the backup file and kept in memory: a loopback-poisoned read
is replaced by the Windows DHCP probe result, `['dhcp']` on macOS, or the
string `'dhcp'` on Linux; then an empty array is standardized to
`['dhcp']` on Windows/macOS. -/
def storedOriginalDNS (p : Platform) (cur : DNSValue) (probe : Option Arsea.Str) :
    DNSValue :=
  let cur2 :=
    if isDNSPointingToLocalhost cur then
      match p with
      | .win32 => getOriginalDNSWindows probe
      | .darwin => .vlist [dhcpB]
      | .linux => .vstr dhcpB
    else cur
  match p, cur2 with
  | .win32, .vlist [] => .vlist [dhcpB]
  | .darwin, .vlist [] => .vlist [dhcpB]
  | _, _ => cur2

end Arsea.DNSConfigManager

namespace Arsea.DNSConfigManager

/-- Remove one string piece before each occurrence of `pat` (model of
`String.prototype.split(pat)` for a multi-character separator). The fuel
is the string length, which bounds the recursion. -/
def splitOnSubAux (pat : Arsea.Str) : Nat → Arsea.Str → Arsea.Str → List Arsea.Str
  | 0, rest, acc => [acc ++ rest]
  | fuel + 1, rest, acc =>
    if pat ≠ [] ∧ pat.isPrefixOf rest then
      acc :: splitOnSubAux pat fuel (rest.drop pat.length) []
    else
      match rest with
      | [] => [acc]
      | c :: rs => splitOnSubAux pat fuel rs (acc ++ [c])

/-- Model of `s.split(pat)` for a multi-character separator `pat`. -/
def splitOnSub (pat s : Arsea.Str) : List Arsea.Str :=
  splitOnSubAux pat (s.length + 1) s []

/-- The marker-stripping step of `DNSConfigManager.restoreLinux`
(lines 713–724): when the backed-up content contains the Arsea header
marker, keep only the text before the first header plus the text after the
first footer inside the first post-header segment, trimmed; otherwise the
content is used unchanged. -/
def cleanArseaMarkers (t : Arsea.Str) : Arsea.Str :=
  if Arsea.isSubstr arseaHeaderTrimB t then
    let parts := splitOnSub arseaHeaderTrimB t
    let p0 := parts.getD 0 []
    let p1 := parts.getD 1 []
    let outside :=
      p0 ++ (if Arsea.isSubstr arseaFooterTrimB p1 then
        (splitOnSub arseaFooterTrimB p1).getD 1 [] else [])
    Arsea.trimStr outside
  else t

/-- The line filter of `DNSConfigManager.configureLinux` (lines 526–532):
drop the lines of any previous Arsea section, including the marker lines
themselves. -/
def removeArseaLines : List Arsea.Str → Bool → List Arsea.Str
  | [], _ => []
  | l :: ls, inSec =>
    if arseaHeaderTrimB.isPrefixOf l then removeArseaLines ls true
    else if arseaFooterTrimB.isPrefixOf l then removeArseaLines ls false
    else if inSec then removeArseaLines ls true
    else l :: removeArseaLines ls false

/-- The `/etc/resolv.conf` rewrite performed by the fallback branch of
`DNSConfigManager.configureLinux` with `dnsServer = '127.0.0.1'`: prepend
the Arsea marker section with nameserver entries for `127.0.0.1`,
`8.8.8.8` and `1.1.1.1` to the retained non-blank original lines, then
write `finalResolvConf.trim() + '\n'`. -/
def configureLinuxFile (c : Arsea.Str) : Arsea.Str :=
  let kept := removeArseaLines (Arsea.splitLines c) false
  let entries :=
    nsSpaceB ++ lo127B ++ [10] ++ nsSpaceB ++ dns8888B ++ [10] ++
    nsSpaceB ++ dns1111B ++ [10]
  let headerLine := arseaHeaderTrimB ++ [10]
  let footerLine := arseaFooterTrimB ++ [10]
  let finalConf :=
    headerLine ++ entries ++ footerLine ++
    Arsea.joinNl (kept.filter fun l => !(Arsea.trimStr l).isEmpty)
  Arsea.trimStr finalConf ++ [10]

/-- Abstract system resolver state for one managed interface, as far as
the source can observe and modify it: Windows in DHCP or static mode,
macOS in automatic or static mode, or a Linux host whose resolvers live in
`/etc/resolv.conf` (the `systemd-resolved`-inactive environment, which is
the one where `configureLinux`/`restoreLinux` fall back to editing the
file — the drop-in path is driven purely by subprocess availability). -/
inductive SysState where
  | winDhcp
  | winStatic (l : List Arsea.Str)
  | macAuto
  | macStatic (l : List Arsea.Str)
  | linuxFile (c : Arsea.Str)
deriving DecidableEq, Repr

/-- Environment facts outside the program's control: the DNS server the
Windows DHCP lease advertises (shown by `netsh` in DHCP mode, `none` when
the lease lists none), which is also what the `getOriginalDNSWindows`
probe captures. -/
structure Env where
  winDhcpDns : Option Arsea.Str
deriving DecidableEq, Repr

/-- The platform a state lives on. -/
def SysState.platform : SysState → Platform
  | .winDhcp => .win32
  | .winStatic _ => .win32
  | .macAuto => .darwin
  | .macStatic _ => .darwin
  | .linuxFile _ => .linux

/-- Model of `DNSConfigManager.getCurrentDNS`: what one read of the
resolvers returns in state `s`. On Windows `parseWindowsDNS` yields the
DHCP-advertised server (or `['dhcp']` when none is listed) in DHCP mode
and the static list in static mode; on macOS `networksetup` output maps
the automatic mode to `['dhcp']`; on Linux (resolvectl unavailable) the
whole `/etc/resolv.conf` content is returned. -/
def readDNS (e : Env) : SysState → DNSValue
  | .winDhcp =>
    match e.winDhcpDns with
    | some ip => .vlist [ip]
    | none => .vlist [dhcpB]
  | .winStatic l => .vlist l
  | .macAuto => .vlist [dhcpB]
  | .macStatic l => .vlist l
  | .linuxFile c => .vstr c

/-- The system-state effect of `DNSConfigManager.configure('127.0.0.1')`
after a successful backup: Windows sets static primary `127.0.0.1` and
adds `8.8.8.8` second; macOS sets the service list to
`127.0.0.1 8.8.8.8`; Linux (fallback mode) rewrites `/etc/resolv.conf`. -/
def applyConfigure : SysState → SysState
  | .winDhcp => .winStatic [lo127B, dns8888B]
  | .winStatic _ => .winStatic [lo127B, dns8888B]
  | .macAuto => .macStatic [lo127B, dns8888B]
  | .macStatic _ => .macStatic [lo127B, dns8888B]
  | .linuxFile c => .linuxFile (configureLinuxFile c)

/-- Model of `DNSConfigManager.restoreToAutomatic`: Windows back to DHCP,
macOS to `empty`, and on Linux (no `systemd-resolved` drop-in to remove in
the modelled environment) no file is written. -/
def restoreToAuto : SysState → SysState
  | .winDhcp => .winDhcp
  | .winStatic _ => .winDhcp
  | .macAuto => .macAuto
  | .macStatic _ => .macAuto
  | .linuxFile c => .linuxFile c

/-- Model of `DNSConfigManager.restore` applied in state `s` with the
backed-up value `stored`: an empty or `dhcp` value restores to automatic;
otherwise `restoreWindows` / `restoreMacOS` reapply a stored list (falling
back to automatic when it mentions `dhcp`), and `restoreLinux` rewrites
`/etc/resolv.conf` from a stored content string only when that string
contains `nameserver` — otherwise it leaves the current state alone. -/
def applyRestore (stored : DNSValue) (s : SysState) : SysState :=
  if stored = .vlist [] then restoreToAuto s
  else if stored = .vstr dhcpB ∨ stored = .vlist [dhcpB] then restoreToAuto s
  else
    match s with
    | .winDhcp | .winStatic _ =>
      match stored with
      | .vlist l =>
        if l.contains dhcpB then .winDhcp
        else if !l.isEmpty then .winStatic l
        else .winDhcp
      | .vstr _ => .winDhcp
    | .macAuto | .macStatic _ =>
      match stored with
      | .vlist l =>
        if l.contains dhcpB || l.isEmpty then .macAuto else .macStatic l
      | .vstr _ => .macAuto
    | .linuxFile c =>
      match stored with
      | .vstr t =>
        if t ≠ dhcpB ∧ Arsea.isSubstr nameserverB t then
          .linuxFile (cleanArseaMarkers t ++ [10])
        else .linuxFile c
      | .vlist _ => .linuxFile c

/-- The backup value `DNSConfigManager.backup` persists when run in state
`s` under environment `e` (the Windows DHCP probe sees the same lease DNS
as a DHCP-mode read). -/
def backupOf (e : Env) (s : SysState) : DNSValue :=
  storedOriginalDNS s.platform (readDNS e s) e.winDhcpDns

/-- The nameserver addresses of a resolv.conf content: for every line
starting with `nameserver `, the trimmed remainder of the line. This is
the observable "resolver list" of a Linux configuration file. -/
def nameserversOf (c : Arsea.Str) : List Arsea.Str :=
  (Arsea.splitLines c).filterMap fun l =>
    if nsSpaceB.isPrefixOf l then some (Arsea.trimStr (l.drop nsSpaceB.length))
    else none

/-- The interface's effective resolver list in state `s`: the static lists
where static, the DHCP-advertised servers in Windows DHCP mode, the
(empty, system-managed) list in macOS automatic mode, and the
`nameserver` entries of `/etc/resolv.conf` on Linux. -/
def resolverList (e : Env) : SysState → List Arsea.Str
  | .winDhcp =>
    match e.winDhcpDns with
    | some ip => [ip]
    | none => []
  | .winStatic l => l
  | .macAuto => []
  | .macStatic l => l
  | .linuxFile c => nameserversOf c

/-- Well-formedness of a pre-existing state: static server lists are
nonempty and do not contain the literal string `dhcp` (they are IP
literals parsed from `netsh`/`networksetup` output), and a pre-existing
Linux resolv.conf contains no leftover Arsea marker. Likewise a DHCP
lease never advertises the literal string `dhcp`. -/
def wfState : SysState → Prop
  | .winDhcp => True
  | .winStatic l => l ≠ [] ∧ ¬ dhcpB ∈ l
  | .macAuto => True
  | .macStatic l => l ≠ [] ∧ ¬ dhcpB ∈ l
  | .linuxFile c => Arsea.isSubstr arseaHeaderTrimB c = false

/-- Well-formedness of the environment: a DHCP lease advertises an IP
literal, never the sentinel string `dhcp`. -/
def wfEnv (e : Env) : Prop := e.winDhcpDns ≠ some dhcpB

end Arsea.DNSConfigManager

namespace Arsea.ProcessManager

/-- A filesystem operation, as issued by the daemon's file writers. -/
inductive FsOp where
  | writeF (path content : Arsea.Str)
  | renameF (src dst : Arsea.Str)
  | unlinkF (path : Arsea.Str)
deriving DecidableEq, Repr

/-- Is this operation a rename? -/
def FsOp.isRename : FsOp → Bool
  | .renameF _ _ => true
  | _ => false

/-- ASCII bytes of `./arsea-daemon.pid` (the `pidFile` option the CLI
passes to `ProcessManager`). -/
def pidFilePathB : Arsea.Str :=
  [46, 47, 97, 114, 115, 101, 97, 45, 100, 97, 101, 109, 111, 110, 46, 112, 105, 100]

/-- ASCII bytes of `./arsea-state.json`. -/
def stateFilePathB : Arsea.Str :=
  [46, 47, 97, 114, 115, 101, 97, 45, 115, 116, 97, 116, 101, 46, 106, 115, 111, 110]

/-- ASCII bytes of `./dns-backup.json` (the default `backupFile` of
`DNSConfigManager`). -/
def backupFilePathB : Arsea.Str :=
  [46, 47, 100, 110, 115, 45, 98, 97, 99, 107, 117, 112, 46, 106, 115, 111, 110]

/-- ASCII bytes of `/etc/hosts`. -/
def hostsPathB : Arsea.Str := [47, 101, 116, 99, 47, 104, 111, 115, 116, 115]

/-- The file operations of `ProcessManager.writePidFile` (line 42): one
direct `fs.writeFile` of the JSON `content` to the PID file path. -/
def writePidFileOps (content : Arsea.Str) : List FsOp :=
  [.writeF pidFilePathB content]

/-- The file operations of `ProcessManager.saveState` (line 74): one
direct `fs.writeFile` of the JSON `content` to the state file path. -/
def saveStateOps (content : Arsea.Str) : List FsOp :=
  [.writeF stateFilePathB content]

/-- The file operations of the persistence step of
`DNSConfigManager.backup` (line 372): one direct `fs.writeFile` of the
JSON `content` to the backup file path. -/
def backupWriteOps (content : Arsea.Str) : List FsOp :=
  [.writeF backupFilePathB content]

/-- The file operations of `ArseaDaemon.safeWriteHosts` (lines 642–651):
write to `hostsPath + '.tmp-' + Date.now()` (the nonempty `tmpSuffix`)
then rename over the hosts file. -/
def safeWriteHostsOps (content tmpSuffix : Arsea.Str) : List FsOp :=
  [.writeF (hostsPathB ++ tmpSuffix) content,
   .renameF (hostsPathB ++ tmpSuffix) hostsPathB]

/-- The outcome of reading and JSON-parsing the PID file at the start of
`checkExistingInstance`: the recorded pid, a missing file (`ENOENT`), or
any other read/parse failure. -/
inductive ReadPidResult where
  | ok (pid : Nat)
  | enoent
  | otherErr
deriving DecidableEq, Repr

/-- The outcome of `process.kill(pid, 0)`: the process exists, it does not
(`ESRCH`), or the probe itself fails (any other error, e.g. `EPERM`). -/
inductive KillProbe where
  | alive
  | esrch
  | failOther
deriving DecidableEq, Repr

/-- The object returned by `ProcessManager.checkExistingInstance`:
`{running, pid?, stale?}`, with `errored` recording the
`{running: false, error}` shape of the outer catch. -/
structure InstanceCheck where
  running : Bool
  pid : Option Nat
  stale : Bool
  errored : Bool
deriving DecidableEq, Repr

/-- Model of `ProcessManager.checkExistingInstance` (lines 232–256),
together with the file operations it performs: an alive pid means another
instance is running; `ESRCH` removes the stale PID file and reports not
running; any other probe failure is re-thrown into the outer catch, which
logs and reports not running (fail-open); a missing PID file reports not
running. -/
def checkExistingInstance (r : ReadPidResult) (probe : Nat → KillProbe) :
    InstanceCheck × List FsOp :=
  match r with
  | .ok pid =>
    match probe pid with
    | .alive => (⟨true, some pid, false, false⟩, [])
    | .esrch => (⟨false, some pid, true, false⟩, [.unlinkF pidFilePathB])
    | .failOther => (⟨false, none, false, true⟩, [])
  | .enoent => (⟨false, none, false, false⟩, [])
  | .otherErr => (⟨false, none, false, true⟩, [])

end Arsea.ProcessManager

namespace Arsea.ArseaCli

open Arsea.ProcessManager

/-- One step of the CLI startup path (`cliRunner` in `daemon/index.js`,
lines 752–792, with `daemon.initialize()` expanded per lines 77–113):
checking for an existing instance, warning and exiting, initializing the
DNS config manager (interface detection, loading a prior backup),
running the DNS integrity check (which may restore to automatic),
loading the blocklist, taking the emergency DNS backup, writing the PID
file, showing the current DNS, and starting the API server. The
`dnsConfigure`/`dnsRestore` steps belong to the enable/shutdown paths and
do not occur during this startup prefix. -/
inductive StartStep where
  | instanceCheck
  | warnExisting
  | exitWith (code : Nat)
  | dnsConfigInit
  | dnsIntegrityCheck
  | blocklistLoad
  | dnsBackup
  | pidFileWrite
  | showDnsStatus
  | apiStart
  | dnsConfigure
  | dnsRestore
deriving DecidableEq, Repr

/-- Does this step back up, reconfigure, or restore the system DNS? -/
def StartStep.touchesDns : StartStep → Bool
  | .dnsIntegrityCheck => true
  | .dnsBackup => true
  | .dnsConfigure => true
  | .dnsRestore => true
  | _ => false

/-- Model of the `cliRunner` startup sequence as a step trace: when the
instance check reports another running daemon, the CLI logs a warning and
calls `process.exit(1)` before any daemon initialization; otherwise it
initializes the daemon (DNS config init, integrity check, blocklist load,
emergency DNS backup), writes the PID file, shows the DNS status and
starts the API server. -/
def cliStartupTrace (inst : InstanceCheck) : List StartStep :=
  if inst.running then
    [.instanceCheck, .warnExisting, .exitWith 1]
  else
    [.instanceCheck, .dnsConfigInit, .dnsIntegrityCheck, .blocklistLoad,
     .dnsBackup, .pidFileWrite, .showDnsStatus, .apiStart]

end Arsea.ArseaCli

namespace Arsea.Spec

open Arsea.SimpleDNSPacket

/-- Big-endian 16-bit encoding, exactly the two bytes `writeU16` stores. -/
def u16 (v : Nat) : List Nat := [v / 256 % 256, v % 256]

/-- Big-endian 32-bit encoding, exactly the four bytes `writeU32` stores. -/
def u32 (v : Nat) : List Nat :=
  [v / 16777216 % 256, v / 65536 % 256, v / 256 % 256, v % 256]

/-- The uncompressed wire encoding of a list of labels: a length byte and
the label bytes for each nonempty label (empty labels are dropped, as
`writeName` drops them), closed by a zero byte. -/
def encLabels : List Arsea.Str → List Nat
  | [] => [0]
  | l :: ls => if l.isEmpty then encLabels ls else l.length :: (l ++ encLabels ls)

/-- The uncompressed wire encoding of a dotted name (spec: "the question's
name written uncompressed"). -/
def encName (name : Arsea.Str) : List Nat := encLabels (Arsea.splitOnDot name)

/-- The response bytes the specification describes for a blocked query:
the query id, flags `0x8180` (QR=1, AA=0, RA=1, RCODE=0), QDCOUNT=1,
ANCOUNT=1, NSCOUNT=0, ARCOUNT=0, the echoed question with its name
written uncompressed, and one answer RR with the same name, TYPE=A,
CLASS=IN, TTL=300, RDLENGTH=4 and RDATA `127.0.0.1`. -/
def expectedResponse (q : Query) : List Nat :=
  u16 q.id ++ [0x81, 0x80] ++ u16 1 ++ u16 1 ++ u16 0 ++ u16 0 ++
  encName q.question.name ++ u16 q.question.qtype ++ u16 q.question.qclass ++
  encName q.question.name ++ u16 1 ++ u16 1 ++ u32 300 ++ u16 4 ++
  [127, 0, 0, 1]

/-- Strip a single trailing dot (the normalization step the specification
ascribes to the blocklist `contains` operation). -/
def stripTrailingDot (s : Arsea.Str) : Arsea.Str :=
  if s.getLast? = some 46 then s.dropLast else s

/-- The blocklist membership test exactly as claim C2 words it: lowercase
the name, strip a single trailing dot, then check the exact name and
every proper suffix obtained by dropping leading labels. -/
def claimC2check (blockedDomains : List Arsea.Str) (name : Arsea.Str) : Bool :=
  let m := stripTrailingDot (Arsea.strToLower name)
  let parts := Arsea.splitOnDot m
  blockedDomains.contains m ||
  (List.range parts.length).any fun i =>
    0 < i && blockedDomains.contains (Arsea.joinDots (parts.drop i))

/-- One label of the §3 Domain shape: 1–63 octets matching
`[a-z0-9]([a-z0-9-]*[a-z0-9])?` (lowercase only). -/
def specLabelOk (l : Arsea.Str) : Bool :=
  1 ≤ l.length && l.length ≤ 63 &&
  l.all (fun c => (97 ≤ c && c ≤ 122) || (48 ≤ c && c ≤ 57) || c = 45) &&
  l.getD 0 0 ≠ 45 && l.getD (l.length - 1) 0 ≠ 45

/-- Blocklist entry acceptance exactly as claim C6 words it: after
lowercasing and trimming, the entry must match the §3 Domain regex, be at
most 253 octets, contain no `..`, and contain at least one dot. -/
def claimC6check (e : Arsea.Str) : Bool :=
  let s := Arsea.trimStr (Arsea.strToLower e)
  (Arsea.splitOnDot s).all specLabelOk && s.length ≤ 253 &&
  !(Arsea.isSubstr [46, 46] s) && s.contains 46

/-- A write trace that replaces `target` atomically as claim C9 words it:
write a temporary file, then rename it over the target. -/
def atomicReplaceSpec (ops : List Arsea.ProcessManager.FsOp) (target : Arsea.Str) :
    Prop :=
  ∃ tmp c, tmp ≠ target ∧
    ops = [.writeF tmp c, .renameF tmp target]

end Arsea.Spec

namespace Arsea.Fixtures

open Arsea.SimpleDNSPacket

/-- ASCII bytes of `example.com`. -/
def exampleComB : Arsea.Str := [101, 120, 97, 109, 112, 108, 101, 46, 99, 111, 109]

/-- ASCII bytes of `example.com.` (trailing dot). -/
def exampleComDotB : Arsea.Str :=
  [101, 120, 97, 109, 112, 108, 101, 46, 99, 111, 109, 46]

/-- ASCII bytes of `a.b.example.com`. -/
def abExampleComB : Arsea.Str :=
  [97, 46, 98, 46, 101, 120, 97, 109, 112, 108, 101, 46, 99, 111, 109]

/-- ASCII bytes of `a.com`. -/
def aComB : Arsea.Str := [97, 46, 99, 111, 109]

/-- ASCII bytes of `com`. -/
def comB : Arsea.Str := [99, 111, 109]

/-- ASCII bytes of `localhost`. -/
def localhostB : Arsea.Str := [108, 111, 99, 97, 108, 104, 111, 115, 116]

/-- A wire-format A query for `example.com` with id `0x1234`, RD set. -/
def msgA : Arsea.Str :=
  [18, 52, 1, 0, 0, 1, 0, 0, 0, 0, 0, 0] ++
  [7, 101, 120, 97, 109, 112, 108, 101, 3, 99, 111, 109, 0] ++
  [0, 1, 0, 1]

/-- The parse of `msgA`. -/
def qA : Query := ⟨0x1234, true, ⟨exampleComB, 1, 1⟩⟩

/-- A wire-format AAAA query for `example.com` with id `0x1234`, RD set. -/
def msgAAAA : Arsea.Str :=
  [18, 52, 1, 0, 0, 1, 0, 0, 0, 0, 0, 0] ++
  [7, 101, 120, 97, 109, 112, 108, 101, 3, 99, 111, 109, 0] ++
  [0, 28, 0, 1]

/-- The parse of `msgAAAA`. -/
def qAAAA : Query := ⟨0x1234, true, ⟨exampleComB, 28, 1⟩⟩

/-- Sixty `a` bytes. -/
def label60 : Arsea.Str := List.replicate 60 97

/-- A 242-octet domain name of four labels (60+60+60+59 `a`s): long
enough that the 512-octet response buffer cannot hold the synthesized
response (which needs `30 + 2 * 244 = 518` octets). -/
def longName242 : Arsea.Str :=
  label60 ++ [46] ++ label60 ++ [46] ++ label60 ++ [46] ++ List.replicate 59 97

/-- A wire-format A query for `longName242` with id 7. -/
def msgLong : Arsea.Str :=
  [0, 7, 1, 0, 0, 1, 0, 0, 0, 0, 0, 0] ++
  [60] ++ label60 ++ [60] ++ label60 ++ [60] ++ label60 ++
  [59] ++ List.replicate 59 97 ++ [0] ++ [0, 1, 0, 1]

/-- The parse of `msgLong`. -/
def qLong : Query := ⟨7, true, ⟨longName242, 1, 1⟩⟩

/-- A 254-octet domain of four labels (63+63+63+62 `a`s): accepted by the
code's `length < 255` bound, rejected by the claimed 253-octet bound. -/
def longDomain254 : Arsea.Str :=
  List.replicate 63 97 ++ [46] ++ List.replicate 63 97 ++ [46] ++
  List.replicate 63 97 ++ [46] ++ List.replicate 62 97

/-- ASCII bytes of `search lan` — a resolv.conf content with no
`nameserver` line (and no loopback entry, so not poisoned). -/
def searchLanB : Arsea.Str := [115, 101, 97, 114, 99, 104, 32, 108, 97, 110]

/-- ASCII bytes of `192.168.1.1`. -/
def gatewayB : Arsea.Str := [49, 57, 50, 46, 49, 54, 56, 46, 49, 46, 49]

end Arsea.Fixtures

namespace Arsea.SimpleDNSPacket

/-- A 512-octet buffer whose first `w.length` octets are `w` and whose
remainder is still the zero fill of `Buffer.alloc(512)`. Every write
`buildResponse` performs happens at the frontier `w.length`, so the
builder's intermediate buffers all have this shape. -/
def frontierBuf (w : List Nat) : List Nat :=
  w ++ List.replicate (512 - w.length) 0

end Arsea.SimpleDNSPacket

namespace Arsea

theorem splitOnByte_ne_nil (b : Nat) (s : Str) : splitOnByte b s ≠ [] := by
  induction s with
  | nil => simp [splitOnByte]
  | cons c rest ih =>
    simp only [splitOnByte]
    cases h : splitOnByte b rest with
    | nil => simp
    | cons hh tt => dsimp only; split <;> simp

theorem length_splitOnByte_pos (b : Nat) (s : Str) : 0 < (splitOnByte b s).length :=
  List.length_pos.mpr (splitOnByte_ne_nil b s)

theorem mem_of_mem_splitOnByte {b : Nat} :
    ∀ {s l : Str}, l ∈ splitOnByte b s → ∀ {c}, c ∈ l → c ∈ s := by
  intro s
  induction s with
  | nil =>
    intro l hl c hc
    simp [splitOnByte] at hl
    subst hl
    simp at hc
  | cons a rest ih =>
    intro l hl c hc
    simp only [splitOnByte] at hl
    cases h : splitOnByte b rest with
    | nil => exact absurd h (splitOnByte_ne_nil b rest)
    | cons hh tt =>
      rw [h] at hl
      dsimp only at hl
      by_cases hab : a = b
      · simp only [if_pos hab] at hl
        rcases List.mem_cons.mp hl with h1 | h2
        · subst h1; simp at hc
        · exact List.mem_cons_of_mem a (ih (h ▸ h2) hc)
      · simp only [if_neg hab] at hl
        rcases List.mem_cons.mp hl with h1 | h2
        · subst h1
          rcases List.mem_cons.mp hc with h3 | h4
          · exact h3 ▸ List.mem_cons_self a rest
          · exact List.mem_cons_of_mem a (ih (h ▸ List.mem_cons_self hh tt) h4)
        · exact List.mem_cons_of_mem a (ih (h ▸ List.mem_cons_of_mem hh h2) hc)

theorem joinSep_cons_cons (sep : Nat) (l h : Str) (t : List Str) :
    joinSep sep (l :: h :: t) = l ++ sep :: joinSep sep (h :: t) := rfl

theorem joinDots_splitOnDot (s : Str) : joinDots (splitOnDot s) = s := by
  induction s with
  | nil => rfl
  | cons c rest ih =>
    simp only [splitOnDot, splitOnByte] at *
    cases h : splitOnByte 46 rest with
    | nil => exact absurd h (splitOnByte_ne_nil 46 rest)
    | cons hh tt =>
      rw [h] at ih
      dsimp only
      by_cases hc : c = 46
      · simp only [if_pos hc, joinDots, joinSep_cons_cons] at *
        simp [hc, ih]
      · simp only [if_neg hc, joinDots] at *
        cases tt with
        | nil =>
          simp only [joinSep] at ih ⊢
          simp [ih]
        | cons t1 ts =>
          rw [joinSep_cons_cons] at ih ⊢
          simp [ih]

end Arsea

namespace Arsea

/-- Claim C2, as stated, fails on the code at two concrete inputs: with
`example.com` blocked, the name `example.com.` (single trailing dot) is
claimed blocked but `isBlocked` returns false (no dot-stripping is
performed); and with `com` blocked, the name `a.com` is claimed blocked
(proper suffix `com`) but `isBlocked` returns false (the loop never
checks the final single-label suffix). -/
theorem c2_counterexample :
    (ArseaDNSProxy.isBlocked [Fixtures.exampleComB] Fixtures.exampleComDotB = false ∧
     Spec.claimC2check [Fixtures.exampleComB] Fixtures.exampleComDotB = true) ∧
    (ArseaDNSProxy.isBlocked [Fixtures.comB] Fixtures.aComB = false ∧
     Spec.claimC2check [Fixtures.comB] Fixtures.aComB = true) := by decide

/-- C2 (amended): the blocklist membership check returns true for a name
iff the name is nonempty and, after lowercasing only (no trailing-dot
stripping), the exact name or some suffix that retains at least two
labels is in the blocked set; in particular, listing `example.com` blocks
`a.b.example.com`, while listing only `a.b.example.com` does not block
the shorter ancestor `example.com`. -/
theorem c2_isBlocked_semantics :
    (∀ (S : List Str) (n : Str),
      ArseaDNSProxy.isBlocked S n = true ↔
        (n ≠ [] ∧ (strToLower n ∈ S ∨
          ∃ i, i + 2 ≤ (splitOnDot (strToLower n)).length ∧
            joinDots ((splitOnDot (strToLower n)).drop i) ∈ S))) ∧
    ArseaDNSProxy.isBlocked [Fixtures.exampleComB] Fixtures.abExampleComB = true ∧
    ArseaDNSProxy.isBlocked [Fixtures.abExampleComB] Fixtures.exampleComB = false := by
  refine ⟨?_, by decide, by decide⟩
  intro S n
  simp only [ArseaDNSProxy.isBlocked]
  by_cases hn : n.isEmpty
  · simp [hn, List.isEmpty_iff.mp hn]
  · rw [if_neg (by simpa using hn)]
    have hne : n ≠ [] := by simpa [List.isEmpty_iff] using hn
    by_cases hc : S.contains (strToLower n) = true
    · simp [hc, hne, List.elem_iff.mp hc]
    · rw [if_neg hc]
      simp only [List.any_eq_true, List.mem_range]
      constructor
      · rintro ⟨i, hi, hmem⟩
        refine ⟨hne, Or.inr ⟨i, ?_, List.elem_iff.mp hmem⟩⟩
        have h1 := length_splitOnByte_pos 46 (strToLower n)
        have h2 : (splitOnDot (strToLower n)).length =
          (splitOnByte 46 (strToLower n)).length := rfl
        omega
      · rintro ⟨-, h | ⟨i, hi, hmem⟩⟩
        · exact absurd (List.elem_iff.mpr h) hc
        · refine ⟨i, ?_, List.elem_iff.mpr hmem⟩
          have h2 : (splitOnDot (strToLower n)).length =
            (splitOnByte 46 (strToLower n)).length := rfl
          omega

/-- Claim C7, as stated, fails on the code at the claimed concrete input:
handling a 5-octet buffer sends no reply and does not crash, but the
`errors` counter is NOT incremented (it stays at its prior value, here 3)
— only `queries` advances — because `parse` catches its own exception and
returns null before the handler's catch block is reached. -/
theorem c7_counterexample :
    ArseaDNSProxy.handleDNSQuery [] ⟨5, 1, 2, 3⟩ [1, 2, 3, 4, 5] =
      (⟨6, 1, 2, 3⟩, .noReply) := by decide

/-- C7 (amended): every buffer shorter than the 12-octet header fails to
parse, and for every packet that fails to parse the proxy sends no reply,
does not crash, increments only the `queries` counter, and leaves the
`errors` counter (and all others) unchanged. -/
theorem c7_malformed_dropped :
    (∀ msg : Str, msg.length < 12 → SimpleDNSPacket.parse msg = none) ∧
    (∀ (S : List Str) (st : ArseaDNSProxy.Stats) (msg : Str),
      SimpleDNSPacket.parse msg = none →
      ArseaDNSProxy.handleDNSQuery S st msg =
        ({ st with queries := st.queries + 1 }, .noReply)) := by
  constructor
  · intro msg h
    simp [SimpleDNSPacket.parse, h]
  · intro S st msg h
    simp [ArseaDNSProxy.handleDNSQuery, h]

/-- Witness for C7's amended theorem at a concrete malformed packet. -/
theorem c7_witness :
    ArseaDNSProxy.handleDNSQuery [] ArseaDNSProxy.stats0 [9, 9, 9] =
      ({ ArseaDNSProxy.stats0 with
          queries := ArseaDNSProxy.stats0.queries + 1 }, .noReply) :=
  c7_malformed_dropped.2 [] ArseaDNSProxy.stats0 [9, 9, 9] (by decide)

end Arsea

namespace Arsea

open Arsea.DNSConfigManager in
/-- Claim C5, as stated, fails on the code: when the current Windows
resolvers point at loopback and the DHCP probe line itself reports
`127.0.0.1`, the value persisted as `originalDNS` is `['127.0.0.1']` —
the probe result is never re-checked — so the stored backup value points
at the loopback address. -/
theorem c5_counterexample :
    isDNSPointingToLocalhost (.vlist [lo127B]) = true ∧
    storedOriginalDNS .win32 (.vlist [lo127B]) (some lo127B) = .vlist [lo127B] ∧
    isDNSPointingToLocalhost
      (storedOriginalDNS .win32 (.vlist [lo127B]) (some lo127B)) = true := by
  decide

open Arsea.DNSConfigManager in
/-- C5 (amended): whenever the resolvers read during backup point at
loopback, the stored `originalDNS` value is the DHCP-probe result on
Windows (which is compared only against `0.0.0.0`, not re-checked for
loopback, so a loopback DHCP answer is stored as-is), the array
`['dhcp']` on macOS, and the string `'dhcp'` on Linux; on macOS and Linux
the stored value therefore never points at loopback. -/
theorem c5_poisoned_backup_replacement :
    ∀ (p : Platform) (cur : DNSValue) (probe : Option Str),
      isDNSPointingToLocalhost cur = true →
      (p = .win32 → storedOriginalDNS p cur probe = getOriginalDNSWindows probe) ∧
      (p = .darwin → storedOriginalDNS p cur probe = .vlist [dhcpB]) ∧
      (p = .linux → storedOriginalDNS p cur probe = .vstr dhcpB) ∧
      (p ≠ .win32 → isDNSPointingToLocalhost (storedOriginalDNS p cur probe) = false) := by
  intro p cur probe h
  cases p with
  | win32 =>
    refine ⟨fun _ => ?_, by simp, by simp, by simp⟩
    simp only [storedOriginalDNS, h, if_true]
    cases probe with
    | none => rfl
    | some ip =>
      simp only [getOriginalDNSWindows]
      by_cases hz : ip = zeroIpB
      · simp [hz]
      · simp [hz]
  | darwin =>
    have e : storedOriginalDNS .darwin cur probe = .vlist [dhcpB] := by
      simp only [storedOriginalDNS, h, if_true]
    exact ⟨by simp, fun _ => e, by simp, fun _ => by rw [e]; decide⟩
  | linux =>
    have e : storedOriginalDNS .linux cur probe = .vstr dhcpB := by
      simp only [storedOriginalDNS, h, if_true]
    exact ⟨by simp, by simp, fun _ => e, fun _ => by rw [e]; decide⟩

/-- Witness for C5's amended theorem: a poisoned macOS read is replaced by
`['dhcp']`, which does not point at loopback. -/
theorem c5_witness :
    DNSConfigManager.storedOriginalDNS .darwin (.vlist [DNSConfigManager.lo127B])
        none = .vlist [DNSConfigManager.dhcpB] ∧
    DNSConfigManager.isDNSPointingToLocalhost
      (DNSConfigManager.storedOriginalDNS .darwin
        (.vlist [DNSConfigManager.lo127B]) none) = false :=
  ⟨(c5_poisoned_backup_replacement .darwin (.vlist [DNSConfigManager.lo127B])
      none (by decide)).2.1 rfl,
   (c5_poisoned_backup_replacement .darwin (.vlist [DNSConfigManager.lo127B])
      none (by decide)).2.2.2 (by simp)⟩

open Arsea.ProcessManager Arsea.ArseaCli in
/-- Claim C8, as stated, fails on the code at a concrete input: when the
PID file records pid 4242 and that process is alive, the instance check
reports a running instance and the CLI exits with code 1 — `cliRunner`
calls `process.exit(1)` — not with the claimed exit code 2 (no path in
the repository calls `process.exit(2)`). -/
theorem c8_counterexample :
    checkExistingInstance (.ok 4242) (fun _ => .alive) =
      (⟨true, some 4242, false, false⟩, []) ∧
    cliStartupTrace ⟨true, some 4242, false, false⟩ =
      [.instanceCheck, .warnExisting, .exitWith 1] ∧
    StartStep.exitWith 2 ∉ cliStartupTrace ⟨true, some 4242, false, false⟩ := by
  refine ⟨by decide, by decide, by decide⟩

open Arsea.ProcessManager Arsea.ArseaCli in
/-- C8 (amended): when the instance check reports another running daemon,
the CLI warns and terminates with exit code 1 (not 2), and no step of the
startup trace up to that exit backs up, reconfigures, or restores the
system DNS. -/
theorem c8_second_instance_exits :
    ∀ inst : InstanceCheck, inst.running = true →
      cliStartupTrace inst = [.instanceCheck, .warnExisting, .exitWith 1] ∧
      ∀ st ∈ cliStartupTrace inst, st.touchesDns = false := by
  intro inst h
  refine ⟨by simp [cliStartupTrace, h], ?_⟩
  simp [cliStartupTrace, h, StartStep.touchesDns]

open Arsea.ProcessManager Arsea.ArseaCli in
/-- Witness for C8's amended theorem at a concrete instance-check result. -/
theorem c8_witness :
    cliStartupTrace ⟨true, none, false, false⟩ =
      [.instanceCheck, .warnExisting, .exitWith 1] :=
  (c8_second_instance_exits ⟨true, none, false, false⟩ rfl).1

open Arsea.ProcessManager in
/-- Claim C9, as stated, fails on the code: the PID file, the state file
and the DNS backup file are each written by a single direct
`fs.writeFile` to the target path — a one-element trace containing no
rename, which cannot be a write-to-temp-then-rename trace (that needs a
write to a distinct temporary path followed by a rename). -/
theorem c9_counterexample :
    writePidFileOps [123] = [.writeF pidFilePathB [123]] ∧
    saveStateOps [123] = [.writeF stateFilePathB [123]] ∧
    backupWriteOps [123] = [.writeF backupFilePathB [123]] ∧
    (writePidFileOps [123] ++ saveStateOps [123] ++
      backupWriteOps [123]).all (fun op => !op.isRename) = true := by
  refine ⟨rfl, rfl, rfl, by decide⟩

open Arsea.ProcessManager in
/-- C9 (amended): each write of the DNS backup file, the PID file, and the
daemon state file is a single direct `fs.writeFile` of the serialized
content to the final path — no write-to-temp-then-rename is performed for
any of them, so crash atomicity is not provided; only the legacy hosts
file writer `safeWriteHosts` uses the temp-then-rename pattern. -/
theorem c9_direct_writes :
    ∀ content tmpSuffix : Str, tmpSuffix ≠ [] →
      writePidFileOps content = [.writeF pidFilePathB content] ∧
      saveStateOps content = [.writeF stateFilePathB content] ∧
      backupWriteOps content = [.writeF backupFilePathB content] ∧
      (writePidFileOps content ++ saveStateOps content ++
        backupWriteOps content).all (fun op => !op.isRename) = true ∧
      Spec.atomicReplaceSpec (safeWriteHostsOps content tmpSuffix) hostsPathB := by
  intro content tmpSuffix ht
  refine ⟨rfl, rfl, rfl,
    by simp [writePidFileOps, saveStateOps, backupWriteOps, FsOp.isRename], ?_⟩
  refine ⟨hostsPathB ++ tmpSuffix, content, ?_, rfl⟩
  intro heq
  have := congrArg List.length heq
  simp [hostsPathB] at this
  exact ht this

open Arsea.ProcessManager in
/-- Witness for C9's amended theorem at concrete content and suffix. -/
theorem c9_witness :
    Spec.atomicReplaceSpec (safeWriteHostsOps [123] [46, 116]) hostsPathB :=
  (c9_direct_writes [123] [46, 116] (by decide)).2.2.2.2

open Arsea.ProcessManager Arsea.ArseaCli in
/-- C10 (confirmed): when the PID file names a process and probing it with
signal 0 fails with any error other than `ESRCH` (for example `EPERM`),
the thrown error reaches the outer catch, which reports
`{running: false, error}` — so the CLI gate does not exit and startup
proceeds: single-instance enforcement fails open. -/
theorem c10_instance_check_fails_open :
    ∀ (pid : Nat) (probe : Nat → KillProbe), probe pid = .failOther →
      (checkExistingInstance (.ok pid) probe).1.running = false ∧
      (checkExistingInstance (.ok pid) probe).1.errored = true ∧
      ∀ c, StartStep.exitWith c ∉
        cliStartupTrace (checkExistingInstance (.ok pid) probe).1 := by
  intro pid probe h
  simp only [checkExistingInstance, h]
  refine ⟨trivial, trivial, ?_⟩
  intro c
  simp [cliStartupTrace]

open Arsea.ProcessManager Arsea.ArseaCli in
/-- Witness for C10's theorem at a concrete pid and an EPERM-style probe. -/
theorem c10_witness :
    (checkExistingInstance (.ok 4242) (fun _ => .failOther)).1.running = false ∧
    StartStep.exitWith 2 ∉
      cliStartupTrace (checkExistingInstance (.ok 4242) (fun _ => .failOther)).1 :=
  ⟨(c10_instance_check_fails_open 4242 (fun _ => .failOther) rfl).1,
   (c10_instance_check_fails_open 4242 (fun _ => .failOther) rfl).2.2 2⟩

end Arsea

namespace Arsea

theorem isWs_toLowerByte (c : Nat) : isWsByte (toLowerByte c) = isWsByte c := by
  unfold toLowerByte
  split
  · rename_i h
    have h1 : isWsByte (c + 32) = false := by simp [isWsByte]; omega
    have h2 : isWsByte c = false := by simp [isWsByte]; omega
    rw [h1, h2]
  · rfl

theorem trimStr_strToLower (s : Str) :
    trimStr (strToLower s) = strToLower (trimStr s) := by
  have hfun : (isWsByte ∘ toLowerByte) = isWsByte := funext isWs_toLowerByte
  unfold trimStr strToLower
  rw [List.dropWhile_map, hfun, ← List.map_reverse, List.dropWhile_map, hfun,
    ← List.map_reverse]

theorem not_upper_of_mem_strToLower {c : Nat} {s : Str} (h : c ∈ strToLower s) :
    ¬(65 ≤ c ∧ c ≤ 90) := by
  unfold strToLower at h
  obtain ⟨d, _, rfl⟩ := List.mem_map.mp h
  unfold toLowerByte
  split <;> omega

theorem all_congr_of_mem {α : Type} {p q : α → Bool} :
    ∀ l : List α, (∀ x ∈ l, p x = q x) → l.all p = l.all q := by
  intro l h
  induction l with
  | nil => rfl
  | cons a as ih =>
    simp only [List.all_cons, h a (List.mem_cons_self a as)]
    rw [ih fun x hx => h x (List.mem_cons_of_mem a hx)]

theorem regexLabelOk_eq_specLabelOk {l : Str}
    (h : ∀ c ∈ l, ¬(65 ≤ c ∧ c ≤ 90)) :
    ArseaDaemon.regexLabelOk l = Spec.specLabelOk l := by
  unfold ArseaDaemon.regexLabelOk Spec.specLabelOk
  have hall : (l.all fun c =>
      (97 ≤ c && c ≤ 122) || (65 ≤ c && c ≤ 90) || (48 ≤ c && c ≤ 57) || c = 45) =
      (l.all fun c => (97 ≤ c && c ≤ 122) || (48 ≤ c && c ≤ 57) || c = 45) := by
    apply all_congr_of_mem
    intro x hx
    have hu : (decide (65 ≤ x) && decide (x ≤ 90)) = false := by
      have := h x hx
      simp
      omega
    simp [hu]
  rw [hall]

end Arsea

namespace Arsea

set_option maxRecDepth 4000 in
/-- Claim C6, as stated, fails on the code at two concrete inputs: the
entry `localhost` has no dot yet is accepted by the loader (the code
never requires a dot), and a 254-octet domain exceeds the claimed
253-octet cap yet is accepted (the code's bound is `length < 255`). -/
theorem c6_counterexample :
    (ArseaDaemon.acceptsEntry Fixtures.localhostB = true ∧
     Spec.claimC6check Fixtures.localhostB = false) ∧
    (ArseaDaemon.acceptsEntry Fixtures.longDomain254 = true ∧
     Spec.claimC6check Fixtures.longDomain254 = false) := by decide

/-- C6 (amended): the loader accepts an entry exactly when, after
lowercasing and trimming, every dot-separated label is 1–63 characters of
letters, digits and hyphens with no leading or trailing hyphen (which
also rules out empty labels, hence `..`), and the whole name is at most
254 octets; there is no minimum-dot requirement. Every other entry is
rejected and counted: the invalid counter equals the number of rejected
entries. -/
theorem c6_entry_acceptance :
    (∀ e : Str, ArseaDaemon.acceptsEntry e = true ↔
      ((splitOnDot (ArseaDaemon.sanitize e)).all Spec.specLabelOk = true ∧
        (ArseaDaemon.sanitize e).length ≤ 254)) ∧
    (∀ entries : List Str, (ArseaDaemon.loadValidateCounts entries).2 =
      (entries.filter fun e => !ArseaDaemon.acceptsEntry e).length) := by
  constructor
  · intro e
    have hsan : ArseaDaemon.sanitize e = strToLower (trimStr e) :=
      trimStr_strToLower e
    have hlow : ∀ c ∈ ArseaDaemon.sanitize e, ¬(65 ≤ c ∧ c ≤ 90) := by
      intro c hc
      rw [hsan] at hc
      exact not_upper_of_mem_strToLower hc
    have hall : (splitOnDot (ArseaDaemon.sanitize e)).all ArseaDaemon.regexLabelOk
        = (splitOnDot (ArseaDaemon.sanitize e)).all Spec.specLabelOk := by
      apply all_congr_of_mem
      intro l hl
      exact regexLabelOk_eq_specLabelOk
        (fun c hc => hlow c (mem_of_mem_splitOnByte hl hc))
    have hempty : (trimStr e).isEmpty = (ArseaDaemon.sanitize e).isEmpty := by
      rw [hsan]
      cases trimStr e <;> simp [strToLower]
    unfold ArseaDaemon.acceptsEntry ArseaDaemon.isValidDomain
    constructor
    · intro h
      simp only [Bool.and_eq_true, Bool.not_eq_true', decide_eq_true_eq] at h
      obtain ⟨hne, ⟨hreg, hpos⟩, hlt⟩ := h
      exact ⟨by rw [← hall]; exact hreg, by omega⟩
    · rintro ⟨hspec, hlen⟩
      have hsne : ArseaDaemon.sanitize e ≠ [] := by
        intro hnil
        rw [hnil] at hspec
        exact absurd hspec (by decide)
      have hpos := List.length_pos.mpr hsne
      simp only [Bool.and_eq_true, Bool.not_eq_true', decide_eq_true_eq]
      refine ⟨?_, ⟨by rw [hall]; exact hspec, by omega⟩, by omega⟩
      rw [hempty]
      simp [List.isEmpty_iff, hsne]
  · have key : ∀ (es : List Str) (acc : List Str × Nat),
        (es.foldl (fun acc e =>
          if ArseaDaemon.acceptsEntry e then
            (if acc.1.contains (ArseaDaemon.sanitize e) then acc.1
             else acc.1 ++ [ArseaDaemon.sanitize e], acc.2)
          else (acc.1, acc.2 + 1)) acc).2
        = acc.2 + (es.filter fun e => !ArseaDaemon.acceptsEntry e).length := by
      intro es
      induction es with
      | nil => intro acc; simp
      | cons a as ih =>
        intro acc
        rw [List.foldl_cons]
        by_cases ha : ArseaDaemon.acceptsEntry a = true
        · rw [if_pos ha, ih]
          simp [List.filter_cons, ha]
        · rw [if_neg ha, ih]
          simp only [List.filter_cons, ha, Bool.not_false, if_pos]
          simp
          omega
    intro entries
    have h := key entries ([], 0)
    simpa [ArseaDaemon.loadValidateCounts] using h

end Arsea

namespace Arsea.SimpleDNSPacket

theorem frontierBuf_length (w : List Nat) (h : w.length ≤ 512) :
    (frontierBuf w).length = 512 := by
  unfold frontierBuf
  simp
  omega

theorem set_append_len : ∀ (w r : List Nat) (v : Nat),
    (w ++ r).set w.length v = w ++ r.set 0 v := by
  intro w
  induction w with
  | nil => intro r v; rfl
  | cons a as ih =>
    intro r v
    simp only [List.cons_append, List.length_cons, List.set]
    exact congrArg (List.cons a) (ih r v)

theorem frontier_set_raw (w : List Nat) (v : Nat) (h : w.length < 512) :
    (frontierBuf w).set w.length v = frontierBuf (w ++ [v]) := by
  unfold frontierBuf
  rw [set_append_len]
  have h1 : 512 - w.length = (512 - (w.length + 1)) + 1 := by omega
  rw [h1, List.replicate_succ]
  simp [List.set]

theorem frontier_set (w : List Nat) (v : Nat) (h : w.length < 512) :
    setByte (frontierBuf w) w.length v = frontierBuf (w ++ [v]) := by
  unfold setByte
  rw [if_pos (by rw [frontierBuf_length w (by omega)]; omega)]
  exact frontier_set_raw w v h

theorem frontier_setByte (w : List Nat) (v off : Nat) (hoff : off = w.length)
    (h : off < 512) :
    setByte (frontierBuf w) off v = frontierBuf (w ++ [v]) := by
  subst hoff
  exact frontier_set w v h

theorem frontier_take_off (w : List Nat) (n : Nat) (hoff : n = w.length) :
    (frontierBuf w).take n = w := by
  subst hoff
  exact List.take_left w _

theorem frontier_writeU16 (w : List Nat) (v off : Nat) (hoff : off = w.length)
    (h : off + 2 ≤ 512) :
    writeU16 (frontierBuf w) v off = .ok (frontierBuf (w ++ Spec.u16 v)) := by
  subst hoff
  unfold writeU16
  rw [if_pos (by rw [frontierBuf_length w (by omega)]; omega)]
  rw [frontier_set_raw w _ (by omega)]
  rw [show w.length + 1 = (w ++ [v / 256 % 256]).length by simp]
  rw [frontier_set_raw _ _ (by simp; omega)]
  simp [Spec.u16]

theorem frontier_writeU32 (w : List Nat) (v off : Nat) (hoff : off = w.length)
    (h : off + 4 ≤ 512) :
    writeU32 (frontierBuf w) v off = .ok (frontierBuf (w ++ Spec.u32 v)) := by
  subst hoff
  unfold writeU32
  rw [if_pos (by rw [frontierBuf_length w (by omega)]; omega)]
  rw [frontier_set_raw w _ (by omega)]
  rw [show w.length + 1 = (w ++ [v / 16777216 % 256]).length by simp]
  rw [frontier_set_raw _ _ (by simp; omega)]
  rw [show w.length + 2 = ((w ++ [v / 16777216 % 256]) ++ [v / 65536 % 256]).length
    by simp]
  rw [frontier_set_raw _ _ (by simp; omega)]
  rw [show w.length + 3 =
    (((w ++ [v / 16777216 % 256]) ++ [v / 65536 % 256]) ++ [v / 256 % 256]).length
    by simp]
  rw [frontier_set_raw _ _ (by simp; omega)]
  simp [Spec.u32]

theorem frontier_bufWriteStr (w s : List Nat) (off : Nat) (hoff : off = w.length)
    (h : off + s.length ≤ 512) :
    bufWriteStr (frontierBuf w) s off = .ok (frontierBuf (w ++ s)) := by
  subst hoff
  have hlen : (frontierBuf w).length = 512 := frontierBuf_length w (by omega)
  unfold bufWriteStr
  rw [if_neg (by rw [hlen]; rintro ⟨-, hlt⟩; omega)]
  rw [hlen]
  unfold frontierBuf
  rw [List.take_left, List.take_of_length_le (by omega),
    Nat.min_eq_left (by omega), List.drop_append, List.drop_replicate]
  simp only [List.append_assoc, List.length_append]
  have hc : 512 - w.length - s.length = 512 - (w.length + s.length) := by omega
  rw [hc]

end Arsea.SimpleDNSPacket

namespace Arsea.SimpleDNSPacket

theorem encLabels_length_pos : ∀ ls : List Arsea.Str, 1 ≤ (Spec.encLabels ls).length := by
  intro ls
  induction ls with
  | nil => simp [Spec.encLabels]
  | cons l ls ih =>
    simp only [Spec.encLabels]
    split
    · exact ih
    · simp

theorem frontier_writeNameAux :
    ∀ (ls : List Arsea.Str) (w : List Nat) (off : Nat), off = w.length →
      off + (Spec.encLabels ls).length ≤ 512 →
      writeNameAux ls (frontierBuf w) off =
        .ok (frontierBuf (w ++ Spec.encLabels ls), off + (Spec.encLabels ls).length) := by
  intro ls
  induction ls with
  | nil =>
    intro w off hoff h
    subst hoff
    simp only [Spec.encLabels] at h ⊢
    unfold writeNameAux
    rw [frontier_set w 0 (by simp at h; omega)]
    simp
  | cons l ls ih =>
    intro w off hoff h
    subst hoff
    by_cases hl : l.isEmpty
    · have he : Spec.encLabels (l :: ls) = Spec.encLabels ls := by
        simp only [Spec.encLabels, hl, if_true]
      rw [he] at h
      unfold writeNameAux
      rw [if_pos hl, ih w w.length rfl h, he]
    · have he : Spec.encLabels (l :: ls) = l.length :: (l ++ Spec.encLabels ls) := by
        simp [Spec.encLabels, hl]
      rw [he] at h
      simp only [List.length_cons, List.length_append] at h
      have hpos := encLabels_length_pos ls
      unfold writeNameAux
      rw [if_neg hl]
      rw [frontier_set w l.length (by omega)]
      rw [frontier_bufWriteStr (w ++ [l.length]) l (w.length + 1)
        (by simp only [List.length_append, List.length_cons, List.length_nil])
        (by omega)]
      dsimp only
      rw [ih ((w ++ [l.length]) ++ l) (w.length + 1 + l.length)
        (by simp only [List.length_append, List.length_cons, List.length_nil])
        (by omega)]
      rw [he]
      have h1 : (w ++ [l.length]) ++ l ++ Spec.encLabels ls =
          w ++ (l.length :: (l ++ Spec.encLabels ls)) := by simp
      have h2 : w.length + 1 + l.length + (Spec.encLabels ls).length =
          w.length + (l.length :: (l ++ Spec.encLabels ls)).length := by
        simp only [List.length_cons, List.length_append]
        omega
      rw [h1, h2]

theorem frontier_take (w : List Nat) : (frontierBuf w).take w.length = w :=
  List.take_left w _

theorem except_bind_ok {α β : Type} (a : α) (f : α → Except Unit β) :
    (Except.ok a >>= f) = f a := rfl

theorem encLabels_length_le :
    ∀ ls : List Arsea.Str, (Spec.encLabels ls).length ≤ (Arsea.joinDots ls).length + 2 := by
  intro ls
  induction ls with
  | nil => simp [Spec.encLabels]
  | cons l ls ih =>
    simp only [Spec.encLabels]
    split
    · rename_i hl
      have hl' : l = [] := by simpa using hl
      subst hl'
      cases ls with
      | nil => simp [Arsea.joinDots, Arsea.joinSep, Spec.encLabels]
      | cons h t =>
        rw [show Arsea.joinDots ([] :: h :: t) = [] ++ 46 :: Arsea.joinDots (h :: t)
          from rfl]
        simp only [List.nil_append, List.length_cons]
        omega
    · rename_i hl
      cases ls with
      | nil =>
        simp only [Spec.encLabels, Arsea.joinDots, Arsea.joinSep]
        simp
      | cons h t =>
        rw [show Arsea.joinDots (l :: h :: t) = l ++ 46 :: Arsea.joinDots (h :: t)
          from rfl]
        simp only [List.length_cons, List.length_append] at ih ⊢
        omega

theorem encName_length_le (name : Arsea.Str) :
    (Spec.encName name).length ≤ name.length + 2 := by
  have h := encLabels_length_le (Arsea.splitOnDot name)
  rw [Arsea.joinDots_splitOnDot] at h
  exact h

end Arsea.SimpleDNSPacket

namespace Arsea.SimpleDNSPacket

theorem u16_len (v : Nat) : (Spec.u16 v).length = 2 := rfl

theorem u32_len (v : Nat) : (Spec.u32 v).length = 4 := rfl

theorem buildResponse_ok (q : Query)
    (h : 30 + 2 * (Spec.encName q.question.name).length ≤ 512) :
    buildResponse q blockedIPParts = .ok (Spec.expectedResponse q) := by
  have hE : (Spec.encLabels (Arsea.splitOnDot q.question.name)).length =
      (Spec.encName q.question.name).length := rfl
  unfold buildResponse
  dsimp only
  rw [show (List.replicate 512 0 : List Nat) = frontierBuf [] from rfl]
  rw [frontier_writeU16 [] q.id 0 rfl (by omega), except_bind_ok]
  simp only [List.nil_append]
  rw [frontier_writeU16 _ 0x8180 2 (by rw [u16_len]) (by omega), except_bind_ok]
  rw [frontier_writeU16 _ 1 4 (by simp [u16_len]) (by omega), except_bind_ok]
  rw [frontier_writeU16 _ 1 6 (by simp [u16_len]) (by omega), except_bind_ok]
  rw [frontier_writeU16 _ 0 8 (by simp [u16_len]) (by omega), except_bind_ok]
  rw [frontier_writeU16 _ 0 10 (by simp [u16_len]) (by omega), except_bind_ok]
  unfold writeName
  rw [frontier_writeNameAux (Arsea.splitOnDot q.question.name) _ 12
    (by simp [u16_len]) (by rw [hE]; omega), except_bind_ok]
  dsimp only
  rw [frontier_writeU16 _ q.question.qtype _
    (by simp only [List.length_append, u16_len, List.length_nil])
    (by omega), except_bind_ok]
  rw [frontier_writeU16 _ q.question.qclass _
    (by simp only [List.length_append, u16_len, List.length_nil])
    (by omega), except_bind_ok]
  rw [frontier_writeNameAux (Arsea.splitOnDot q.question.name) _ _
    (by simp only [List.length_append, u16_len, List.length_nil])
    (by rw [hE]; omega), except_bind_ok]
  dsimp only
  rw [frontier_writeU16 _ 1 _
    (by simp only [List.length_append, u16_len, List.length_nil])
    (by omega), except_bind_ok]
  rw [frontier_writeU16 _ 1 _
    (by simp only [List.length_append, u16_len, List.length_nil])
    (by omega), except_bind_ok]
  rw [frontier_writeU32 _ 300 _
    (by simp only [List.length_append, u16_len, List.length_nil])
    (by omega), except_bind_ok]
  rw [frontier_writeU16 _ 4 _
    (by simp only [List.length_append, u16_len, u32_len, List.length_nil])
    (by omega), except_bind_ok]
  rw [show blockedIPParts.getD 0 0 = 127 from rfl,
    show blockedIPParts.getD 1 0 = 0 from rfl,
    show blockedIPParts.getD 2 0 = 0 from rfl,
    show blockedIPParts.getD 3 0 = 1 from rfl]
  rw [frontier_setByte _ 127 _
    (by simp only [List.length_append, u16_len, u32_len, List.length_nil])
    (by omega)]
  rw [frontier_setByte _ 0 _
    (by simp only [List.length_append, u16_len, u32_len, List.length_nil,
      List.length_cons])
    (by omega)]
  rw [frontier_setByte _ 0 _
    (by simp only [List.length_append, u16_len, u32_len, List.length_nil,
      List.length_cons])
    (by omega)]
  rw [frontier_setByte _ 1 _
    (by simp only [List.length_append, u16_len, u32_len, List.length_nil,
      List.length_cons])
    (by omega)]
  rw [frontier_take_off _ _
    (by simp only [List.length_append, u16_len, u32_len, List.length_nil,
      List.length_cons])]
  rw [show Spec.encLabels (Arsea.splitOnDot q.question.name) =
    Spec.encName q.question.name from rfl]
  simp only [Spec.expectedResponse, List.append_assoc, List.cons_append,
    List.nil_append]
  rfl

end Arsea.SimpleDNSPacket

namespace Arsea.ArseaDNSProxy

open Arsea.SimpleDNSPacket

theorem handleDNSQuery_blocked (S : List Arsea.Str) (st : Stats) (msg : Arsea.Str)
    (q : Query) (hp : parse msg = some q)
    (ht : q.question.qtype = 1 ∨ q.question.qtype = 28)
    (hb : isBlocked S q.question.name = true) :
    handleDNSQuery S st msg =
      ({ st with queries := st.queries + 1, blocked := st.blocked + 1 },
        sendBlockedResponse q) := by
  unfold handleDNSQuery
  rw [hp]
  dsimp only
  rw [if_neg (by rcases ht with h | h <;> simp [h])]
  rw [if_pos hb]

end Arsea.ArseaDNSProxy

namespace Arsea

open Arsea.SimpleDNSPacket Arsea.ArseaDNSProxy

set_option maxRecDepth 100000 in
/-- Claim C1, as stated, fails on the code at a concrete input: a blocked
242-octet name (well within what the blocklist loader accepts, which
allows up to 254 octets plus `www.` variants) parses fine and its A query
is classified as blocked, but the synthesized response needs
`30 + 2·244 = 518` octets, so the final `writeUInt16BE` overflows the
512-octet `Buffer.alloc(512)` and throws; `sendBlockedResponse` catches
the error and NO response is sent to the client. -/
theorem c1_counterexample :
    parse Fixtures.msgLong = some Fixtures.qLong ∧
    Fixtures.qLong.question.qtype = 1 ∧
    isBlocked [Fixtures.longName242] Fixtures.qLong.question.name = true ∧
    (handleDNSQuery [Fixtures.longName242] stats0 Fixtures.msgLong).2 =
      Action.replyFailed := by
  refine ⟨by decide, rfl, by decide, by decide⟩

/-- C1 (amended): for every received UDP DNS query that parses, whose
qtype is A (1), whose question name is blocked, and whose question name
is at most 239 octets (so the synthesized response fits the 512-octet
buffer), the proxy sends exactly one synthesized response that copies the
request's transaction id, sets the flag bytes to `0x81 0x80` (QR=1, AA=0,
RA=1, RCODE=0), echoes the single (parsed, lowercased) question, and
carries exactly one answer record with the question's name written
uncompressed (empty labels, if any, dropped), TYPE=A, CLASS=IN, TTL=300,
RDLENGTH=4, RDATA `127.0.0.1`; the blocked counter increments. For longer
blocked names the builder throws and no response is sent. -/
theorem c1_blocked_a_query_response :
    ∀ (S : List Str) (st : Stats) (msg : Str) (q : Query),
      parse msg = some q →
      q.question.qtype = 1 →
      isBlocked S q.question.name = true →
      q.question.name.length ≤ 239 →
      handleDNSQuery S st msg =
        ({ st with queries := st.queries + 1, blocked := st.blocked + 1 },
          .reply (Spec.expectedResponse q)) := by
  intro S st msg q hp ht hb hlen
  rw [handleDNSQuery_blocked S st msg q hp (Or.inl ht) hb]
  have hbound : 30 + 2 * (Spec.encName q.question.name).length ≤ 512 := by
    have := encName_length_le q.question.name
    omega
  unfold sendBlockedResponse
  rw [buildResponse_ok q hbound]

/-- Witness for C1's amended theorem: an A query for the blocked name
`example.com`. -/
theorem c1_witness :
    handleDNSQuery [Fixtures.exampleComB] stats0 Fixtures.msgA =
      ({ stats0 with
          queries := stats0.queries + 1
          blocked := stats0.blocked + 1 },
        .reply (Spec.expectedResponse Fixtures.qA)) :=
  c1_blocked_a_query_response [Fixtures.exampleComB] stats0 Fixtures.msgA
    Fixtures.qA (by decide) rfl (by decide) (by decide)

set_option maxRecDepth 100000 in
/-- Claim C3, as stated, fails on the code at a concrete input: an AAAA
(28) query for the blocked name `example.com` is answered with the very
same synthesized packet as an A query — ANCOUNT is 1 (byte 7 of the sent
response), not 0, and the single answer RR at offset 42 has TYPE=A with
RDATA `127.0.0.1` — not the claimed empty NOERROR answer section. -/
theorem c3_counterexample :
    parse Fixtures.msgAAAA = some Fixtures.qAAAA ∧
    Fixtures.qAAAA.question.qtype = 28 ∧
    isBlocked [Fixtures.exampleComB] Fixtures.qAAAA.question.name = true ∧
    (handleDNSQuery [Fixtures.exampleComB] stats0 Fixtures.msgAAAA).2 =
      Action.reply (Spec.expectedResponse Fixtures.qAAAA) ∧
    (Spec.expectedResponse Fixtures.qAAAA).getD 6 0 = 0 ∧
    (Spec.expectedResponse Fixtures.qAAAA).getD 7 0 = 1 ∧
    ((Spec.expectedResponse Fixtures.qAAAA).drop 42).take 2 = [0, 1] := by
  refine ⟨by decide, rfl, by decide, by decide, by decide, by decide, by decide⟩

/-- C3 (amended): for every query for a blocked name with qtype AAAA (28)
whose name is at most 239 octets, the proxy's response is the same
A-record sinkhole it sends for A queries — the question echoes qtype 28,
but the response carries ANCOUNT=1 and one answer record of TYPE=A,
CLASS=IN, TTL=300, RDATA `127.0.0.1` — rather than a NOERROR response
with an empty answer section. -/
theorem c3_blocked_aaaa_query_response :
    ∀ (S : List Str) (st : Stats) (msg : Str) (q : Query),
      parse msg = some q →
      q.question.qtype = 28 →
      isBlocked S q.question.name = true →
      q.question.name.length ≤ 239 →
      handleDNSQuery S st msg =
        ({ st with queries := st.queries + 1, blocked := st.blocked + 1 },
          .reply (Spec.expectedResponse q)) ∧
      (Spec.expectedResponse q).getD 7 0 = 1 := by
  intro S st msg q hp ht hb hlen
  have hbound : 30 + 2 * (Spec.encName q.question.name).length ≤ 512 := by
    have := encName_length_le q.question.name
    omega
  refine ⟨?_, ?_⟩
  · rw [handleDNSQuery_blocked S st msg q hp (Or.inr ht) hb]
    unfold sendBlockedResponse
    rw [buildResponse_ok q hbound]
  · simp [Spec.expectedResponse, Spec.u16]

/-- Witness for C3's amended theorem: an AAAA query for the blocked name
`example.com`. -/
theorem c3_witness :
    handleDNSQuery [Fixtures.exampleComB] stats0 Fixtures.msgAAAA =
      ({ stats0 with
          queries := stats0.queries + 1
          blocked := stats0.blocked + 1 },
        .reply (Spec.expectedResponse Fixtures.qAAAA)) :=
  (c3_blocked_aaaa_query_response [Fixtures.exampleComB] stats0 Fixtures.msgAAAA
    Fixtures.qAAAA (by decide) rfl (by decide) (by decide)).1

end Arsea

namespace Arsea.DNSConfigManager

theorem splitOnByte_append_sep (b : Nat) :
    ∀ s : Arsea.Str, Arsea.splitOnByte b (s ++ [b]) = Arsea.splitOnByte b s ++ [[]] := by
  intro s
  induction s with
  | nil => simp [Arsea.splitOnByte]
  | cons a s ih =>
    simp only [List.cons_append, Arsea.splitOnByte, List.append_eq]
    cases h : Arsea.splitOnByte b s with
    | nil => exact absurd h (Arsea.splitOnByte_ne_nil b s)
    | cons hh tt =>
      rw [h] at ih
      rw [ih]
      dsimp only
      by_cases hab : a = b <;> simp [hab]

theorem nameserversOf_append_nl (c : Arsea.Str) :
    nameserversOf (c ++ [10]) = nameserversOf c := by
  unfold nameserversOf
  rw [show Arsea.splitLines (c ++ [10]) = Arsea.splitLines c ++ [[]] from
    splitOnByte_append_sep 10 c]
  rw [List.filterMap_append]
  simp [nsSpaceB, List.isPrefixOf]

theorem cleanArseaMarkers_no_marker (t : Arsea.Str)
    (h : Arsea.isSubstr arseaHeaderTrimB t = false) :
    cleanArseaMarkers t = t := by
  unfold cleanArseaMarkers
  rw [if_neg (by simp [h])]

end Arsea.DNSConfigManager

namespace Arsea.DNSConfigManager

set_option maxRecDepth 100000 in
/-- Claim C4, as stated, fails on the code at a concrete input: a Linux
host whose `/etc/resolv.conf` is `search lan` (no nameserver line, not
poisoned) is backed up verbatim, Configure prepends the Arsea nameserver
block, but Restore refuses to rewrite the file because the backed-up
content contains no `nameserver` substring — so after Configure-then-
Restore the interface still resolves via `127.0.0.1`/`8.8.8.8`/`1.1.1.1`
instead of its pre-existing (empty) resolver list. -/
theorem c4_counterexample :
    isDNSPointingToLocalhost
      (readDNS ⟨none⟩ (.linuxFile Fixtures.searchLanB)) = false ∧
    resolverList ⟨none⟩ (.linuxFile Fixtures.searchLanB) = [] ∧
    resolverList ⟨none⟩
      (applyRestore (backupOf ⟨none⟩ (.linuxFile Fixtures.searchLanB))
        (applyConfigure (.linuxFile Fixtures.searchLanB))) =
      [lo127B, dns8888B, dns1111B] := by
  refine ⟨by decide, by decide, by decide⟩

/-- C4 (amended): for every well-formed, non-poisoned resolver
configuration, Backup-then-Restore returns the interface's resolver list
to exactly the pre-existing value; Configure-then-Restore does too on
Windows and macOS, and on Linux provided the backed-up resolver-file
content contains a `nameserver` line (otherwise `restoreLinux` leaves the
configured file in place). -/
theorem c4_backup_restore_roundtrip :
    ∀ (e : Env) (s : SysState), wfEnv e → wfState s →
      isDNSPointingToLocalhost (readDNS e s) = false →
      resolverList e (applyRestore (backupOf e s) s) = resolverList e s ∧
      ((match s with
        | SysState.linuxFile c => Arsea.isSubstr nameserverB c = true
        | _ => True) →
        resolverList e (applyRestore (backupOf e s) (applyConfigure s)) =
          resolverList e s) := by
  intro e s hwe hws hnp
  obtain ⟨d⟩ := e
  cases s with
  | winDhcp =>
    cases d with
    | none => exact ⟨by decide, fun _ => by decide⟩
    | some ip =>
      have hip : ip ≠ dhcpB := by
        intro hh
        exact hwe (by simp [wfEnv, hh])
      simp only [readDNS] at hnp
      refine ⟨?_, fun _ => ?_⟩ <;>
        simp [backupOf, readDNS, SysState.platform, storedOriginalDNS, hnp,
          applyConfigure, applyRestore, restoreToAuto, resolverList, hip,
          Ne.symm hip]
  | winStatic l =>
    obtain ⟨hl, hmem⟩ := hws
    cases l with
    | nil => exact absurd rfl hl
    | cons a l' =>
      have ha : a ≠ dhcpB := fun h => hmem (h ▸ List.mem_cons_self a l')
      have hmem' : dhcpB ∉ l' := fun h => hmem (List.mem_cons_of_mem a h)
      have hcont : (a :: l').contains dhcpB = false := by
        cases hcc : (a :: l').contains dhcpB with
        | false => rfl
        | true => exact absurd (List.elem_iff.mp hcc) hmem
      simp only [readDNS] at hnp
      refine ⟨?_, fun _ => ?_⟩ <;>
        simp [backupOf, readDNS, SysState.platform, storedOriginalDNS, hnp,
          applyConfigure, applyRestore, restoreToAuto, resolverList, ha,
          Ne.symm ha, hcont, hmem']
  | macAuto =>
    refine ⟨?_, fun _ => ?_⟩ <;>
      simp [backupOf, readDNS, SysState.platform, storedOriginalDNS,
        applyConfigure, applyRestore, restoreToAuto, resolverList,
        isDNSPointingToLocalhost, dhcpB, lo127B, localhostB, pre127B,
        List.isPrefixOf]
  | macStatic l =>
    obtain ⟨hl, hmem⟩ := hws
    cases l with
    | nil => exact absurd rfl hl
    | cons a l' =>
      have ha : a ≠ dhcpB := fun h => hmem (h ▸ List.mem_cons_self a l')
      have hmem' : dhcpB ∉ l' := fun h => hmem (List.mem_cons_of_mem a h)
      have hcont : (a :: l').contains dhcpB = false := by
        cases hcc : (a :: l').contains dhcpB with
        | false => rfl
        | true => exact absurd (List.elem_iff.mp hcc) hmem
      simp only [readDNS] at hnp
      refine ⟨?_, fun _ => ?_⟩ <;>
        simp [backupOf, readDNS, SysState.platform, storedOriginalDNS, hnp,
          applyConfigure, applyRestore, restoreToAuto, resolverList, ha,
          Ne.symm ha, hcont, hmem']
  | linuxFile c =>
    simp only [readDNS] at hnp
    have hstored : backupOf ⟨d⟩ (.linuxFile c) = .vstr c := by
      simp [backupOf, readDNS, SysState.platform, storedOriginalDNS, hnp]
    rw [hstored]
    constructor
    · by_cases hcd : c = dhcpB
      · subst hcd
        simp [applyRestore, restoreToAuto]
      · by_cases hns : Arsea.isSubstr nameserverB c = true
        · simp only [applyRestore, restoreToAuto]
          rw [if_neg (by simp), if_neg (by simp [hcd])]
          simp only [hcd, hns, ne_eq, not_false_iff, and_true, if_pos]
          rw [cleanArseaMarkers_no_marker c hws]
          simp [resolverList, nameserversOf_append_nl]
        · simp only [applyRestore, restoreToAuto]
          rw [if_neg (by simp), if_neg (by simp [hcd])]
          rw [if_neg (by simp [hns])]
    · intro hm
      have hcd : c ≠ dhcpB := by
        intro hh
        rw [hh] at hm
        exact absurd hm (by decide)
      simp only [applyConfigure, applyRestore, restoreToAuto]
      rw [if_neg (by simp), if_neg (by simp [hcd])]
      simp only [hcd, hm, ne_eq, not_false_iff, and_true, if_pos]
      rw [cleanArseaMarkers_no_marker c hws]
      simp [resolverList, nameserversOf_append_nl]

/-- Witness for C4's amended theorem: spec scenario 4 — Windows interface
with static resolvers `[192.168.1.1]`; Configure then Restore returns the
resolver list to `[192.168.1.1]`. -/
theorem c4_witness :
    resolverList ⟨none⟩
      (applyRestore (backupOf ⟨none⟩ (.winStatic [Fixtures.gatewayB]))
        (applyConfigure (.winStatic [Fixtures.gatewayB]))) =
      resolverList ⟨none⟩ (.winStatic [Fixtures.gatewayB]) :=
  (c4_backup_restore_roundtrip ⟨none⟩ (.winStatic [Fixtures.gatewayB])
    (by simp [wfEnv]) ⟨by simp, by decide⟩ (by decide)).2 trivial

end Arsea.DNSConfigManager
